import Mathlib

/-!
Shallow embedding of `tools/assemble.py` (the HECTIC assembler), together with
theorems checking the natural-language specification against it.

Conventions of the embedding:
* Python integers are unbounded, so they are modelled by `Int`; Python `&`, `|`,
  `~`, `<<`, `>>` on ints are two's-complement bitwise operations on unbounded
  integers, modelled by `Int.land`, `Int.lor`, `Int.lnot` and the Mathlib
  `<<<` / `>>>` instances on `Int` (which implement exactly the arithmetic
  shift semantics of Python).
* Python 2 `/` on two ints is floor division (`Int.fdiv`); `%` is `Int.emod`
  (both agree with Python for the positive divisors used here).
* Raised exceptions are modelled by `Except PyErr`; functions that cannot raise
  are total.
* `self.labels` is a Python dict built only by fresh insertions, modelled as an
  association list extended at the end; `self.code` and `self.fixups` are Python
  lists modelled as Lean lists.
-/

namespace Assemble

/-- Errors that `assemble.py` can raise.  `assembleError` models the
`AssembleError` exception class (message plus source line, the line defaulting
to `-1` as in its constructor); `valueError` models an uncaught Python
`ValueError` (as raised by `int()` on a non-numeric string); `indexError`
models an uncaught `IndexError` (e.g. `token[0]` on an empty string);
`typeError` models an uncaught `TypeError`; `assertionError` models a failed
`assert` statement. -/
inductive PyErr where
  | assembleError (msg : String) (lineno : Int)
  | valueError
  | indexError
  | typeError
  | assertionError
deriving DecidableEq

deriving instance DecidableEq for Except

/-- Fixup-kind constant `CodeBuilder.FIXUP_UNCONDITIONAL = 0`. -/
def FIXUP_UNCONDITIONAL : Int := 0

/-- Fixup-kind constant `CodeBuilder.FIXUP_CONDITIONAL = 1`. -/
def FIXUP_CONDITIONAL : Int := 1

/-- Fixup-kind constant `CodeBuilder.FIXUP_LEA = 2`. -/
def FIXUP_LEA : Int := 2

/-- Fixup-kind constant `CodeBuilder.FIXUP_LABEL_ADDR = 3`. -/
def FIXUP_LABEL_ADDR : Int := 3

/-- One entry of `self.fixups`: the tuple
`(type, len(self.code), self.getPc(), target, lineno)` appended by the emit
methods. `codeOffset` is a list index, hence `Nat`. -/
structure Fixup where
  type : Int
  codeOffset : Nat
  address : Int
  target : String
  lineno : Int
deriving DecidableEq

/-- The state owned by the Python class `CodeBuilder`: the fixup list, the
image (`self.code`), the label table (`self.labels`, a dict built by fresh
insertions only) and `self.currentPc`. -/
structure CodeBuilder where
  fixups : List Fixup
  code : List Int
  labels : List (String × Int)
  currentPc : Int
deriving DecidableEq

/-- `CodeBuilder.__init__`: empty fixups, code and labels, PC = 0. -/
def initBuilder : CodeBuilder :=
  { fixups := [], code := [], labels := [], currentPc := 0 }

/-- `CodeBuilder.getPc`. -/
def getPc (b : CodeBuilder) : Int := b.currentPc

/-- `CodeBuilder.setOrigin(where)`: raises `overlapping origin` when the new
origin is below the current PC, otherwise sets the PC. -/
def setOrigin (b : CodeBuilder) (whereAddr : Int) : Except PyErr CodeBuilder :=
  if whereAddr < b.currentPc then
    .error (.assembleError "overlapping origin" (-1))
  else
    .ok { b with currentPc := whereAddr }

/-- `CodeBuilder.emitData(value)`: appends `value` to `self.code` and advances
the PC by one. -/
def emitData (b : CodeBuilder) (value : Int) : CodeBuilder :=
  { b with code := b.code ++ [value], currentPc := b.currentPc + 1 }

/-- `CodeBuilder._emit(type, instr)`: emits `(type << 13) | instr`. -/
def emitInstr (b : CodeBuilder) (type instr : Int) : CodeBuilder :=
  emitData b (Int.lor (type <<< (13 : Int)) instr)

/-- `CodeBuilder.emitArith(operation, dest, opa, opb)`. -/
def emitArith (b : CodeBuilder) (operation dest opa opb : Int) : CodeBuilder :=
  emitInstr b 0
    (Int.lor (Int.lor (Int.lor (operation <<< (9 : Int)) (opb <<< (6 : Int)))
      (opa <<< (3 : Int))) dest)

/-- `CodeBuilder.emitLoad(dest, ptr, offset)`: note there is no range check and
no masking of `offset`. -/
def emitLoad (b : CodeBuilder) (dest ptr offset : Int) : CodeBuilder :=
  emitInstr b 1 (Int.lor (Int.lor (offset <<< (6 : Int)) (ptr <<< (3 : Int))) dest)

/-- `CodeBuilder.emitStore(src, ptr, offset)`: the offset is split as
`((offset >> 3) & 0xf)` and `(offset & 7)`; there is no range check. -/
def emitStore (b : CodeBuilder) (src ptr offset : Int) : CodeBuilder :=
  emitInstr b 2
    (Int.lor (Int.lor (Int.lor ((Int.land (offset >>> (3 : Int)) 0xf) <<< (9 : Int))
      (src <<< (6 : Int))) (ptr <<< (3 : Int))) (Int.land offset 7))

/-- `CodeBuilder.emitRegisterBranch(reg, link)`. -/
def emitRegisterBranch (b : CodeBuilder) (reg link : Int) : CodeBuilder :=
  emitInstr b 7 (Int.lor (link <<< (12 : Int)) (reg <<< (6 : Int)))

/-- `CodeBuilder.emitLui(dest, value)` for an integer `value`: range check then
`_emit(4, ((value & 0x3ff) << 3) | dest)`. -/
def emitLui (b : CodeBuilder) (dest value : Int) : Except PyErr CodeBuilder :=
  if value > 512 ∨ value < -512 then
    .error (.assembleError ("immediate value out of range " ++ toString value) (-1))
  else
    .ok (emitInstr b 4 (Int.lor ((Int.land value 0x3ff) <<< (3 : Int)) dest))

/-- `CodeBuilder.emitAddi(dest, opa, value)`: range check then
`_emit(3, ((value & 0x7f) << 6) | (opa << 3) | dest)`. -/
def emitAddi (b : CodeBuilder) (dest opa value : Int) : Except PyErr CodeBuilder :=
  if value > 63 ∨ value < -63 then
    .error (.assembleError ("immediate value out of range " ++ toString value) (-1))
  else
    .ok (emitInstr b 3
      (Int.lor (Int.lor ((Int.land value 0x7f) <<< (6 : Int)) (opa <<< (3 : Int))) dest))

/-- `CodeBuilder.emitUnconditionalBranch(lineno, target, link)`: records a
fixup `(FIXUP_UNCONDITIONAL, len(self.code), self.getPc(), target, lineno)`
(with no check that `target` is defined) and emits `(6 << 13) | (link << 12)`. -/
def emitUnconditionalBranch (b : CodeBuilder) (lineno : Int) (target : String)
    (link : Int) : CodeBuilder :=
  emitInstr
    { b with fixups :=
        b.fixups ++ [⟨FIXUP_UNCONDITIONAL, b.code.length, getPc b, target, lineno⟩] }
    6 (link <<< (12 : Int))

/-- `CodeBuilder.emitConditionalBranch(lineno, target, condition)`: records a
fixup (with no check that `target` is defined) and emits
`(5 << 13) | (condition << 10)`. -/
def emitConditionalBranch (b : CodeBuilder) (lineno : Int) (target : String)
    (condition : Int) : CodeBuilder :=
  emitInstr
    { b with fixups :=
        b.fixups ++ [⟨FIXUP_CONDITIONAL, b.code.length, getPc b, target, lineno⟩] }
    5 (condition <<< (10 : Int))

/-- `CodeBuilder.emitLabel(label)`: raises `redefined label` if already in the
table, otherwise records `label -> getPc()`. -/
def emitLabel (b : CodeBuilder) (label : String) : Except PyErr CodeBuilder :=
  if (b.labels.lookup label).isSome then
    .error (.assembleError ("redefined label " ++ label) (-1))
  else
    .ok { b with labels := b.labels ++ [(label, getPc b)] }

/-- `CodeBuilder.emitLea(lineno, reg, target)`: records a `FIXUP_LEA` fixup
keyed to `len(self.code)` (the index the following `lui` word will occupy),
then emits `lui reg, 0` and `addi reg, reg, 0`. -/
def emitLea (b : CodeBuilder) (lineno : Int) (reg : Int) (target : String) :
    Except PyErr CodeBuilder :=
  let b1 :=
    { b with fixups := b.fixups ++ [⟨FIXUP_LEA, b.code.length, getPc b, target, lineno⟩] }
  match emitLui b1 reg 0 with
  | .error e => .error e
  | .ok b2 => emitAddi b2 reg reg 0

/-- `CodeBuilder.emitLabelDataRef(lineno, target)`: records a
`FIXUP_LABEL_ADDR` fixup and emits a placeholder data word `0`. -/
def emitLabelDataRef (b : CodeBuilder) (lineno : Int) (target : String) : CodeBuilder :=
  emitData
    { b with fixups :=
        b.fixups ++ [⟨FIXUP_LABEL_ADDR, b.code.length, getPc b, target, lineno⟩] }
    0

/-- The body of the loop in `CodeBuilder.doFixups` for one fixup record:
look up the label (raising `unknown label` with the fixup's recorded line if
absent), compute `offset = targetAddress - address - 1`, and patch
`code` according to the fixup kind.  The trailing `assert` of the Python
`else` branch is modelled by `assertionError`. -/
def applyFixup (labels : List (String × Int)) (code : List Int) (f : Fixup) :
    Except PyErr (List Int) :=
  match labels.lookup f.target with
  | none => .error (.assembleError ("unknown label " ++ f.target) f.lineno)
  | some targetAddress =>
    let offset := targetAddress - f.address - 1
    if f.type = FIXUP_LEA then
      let code1 := code.set f.codeOffset
        (Int.lor (code.getD f.codeOffset 0)
          ((Int.land (targetAddress >>> (6 : Int)) 0x3ff) <<< (3 : Int)))
      .ok (code1.set (f.codeOffset + 1)
        (Int.lor (code1.getD (f.codeOffset + 1) 0)
          ((Int.land targetAddress 0x3f) <<< (6 : Int))))
    else if f.type = FIXUP_LABEL_ADDR then
      .ok (code.set f.codeOffset targetAddress)
    else if f.type = FIXUP_UNCONDITIONAL then
      if offset > 0x7fff ∨ offset < -0x7fff then
        .error (.assembleError "fixup out of range" f.lineno)
      else
        .ok (code.set f.codeOffset
          (Int.lor (Int.land (code.getD f.codeOffset 0) (Int.lnot 0xfff))
            (Int.land offset 0xfff)))
    else if f.type = FIXUP_CONDITIONAL then
      if offset > 0x1ff ∨ offset < -0x1ff then
        .error (.assembleError "fixup out of range" f.lineno)
      else
        .ok (code.set f.codeOffset
          (Int.lor (Int.land (code.getD f.codeOffset 0) (Int.lnot 0x3ff))
            (Int.land offset 0x3ff)))
    else
      .error .assertionError

/-- The loop of `CodeBuilder.doFixups`, walking the fixups in recorded order
and threading the patched image. -/
def doFixupsGo (labels : List (String × Int)) : List Fixup → List Int →
    Except PyErr (List Int)
  | [], code => .ok code
  | f :: rest, code =>
    match applyFixup labels code f with
    | .error e => .error e
    | .ok code1 => doFixupsGo labels rest code1

/-- `CodeBuilder.doFixups`. -/
def doFixups (b : CodeBuilder) : Except PyErr CodeBuilder :=
  match doFixupsGo b.labels b.fixups b.code with
  | .error e => .error e
  | .ok code1 => .ok { b with code := code1 }

/-- Decimal value of a nonempty all-digit character list (the accumulation that
Python `int` performs on a valid decimal string), `none` otherwise. -/
def decDigits? (l : List Char) : Option Nat :=
  if l ≠ [] ∧ l.all Char.isDigit then
    some (l.foldl (fun a c => 10 * a + (c.toNat - 48)) 0)
  else
    none

/-- A character Python `int(-, 16)` accepts: a decimal digit or a letter in
`a`-`f` / `A`-`F`. -/
def isHexChar (c : Char) : Bool :=
  c.isDigit || ('a' ≤ c && c ≤ 'f') || ('A' ≤ c && c ≤ 'F')

/-- Hexadecimal value of a nonempty all-hex-digit character list, `none`
otherwise. -/
def hexDigits? (l : List Char) : Option Nat :=
  if l ≠ [] ∧ l.all isHexChar then
    some (l.foldl (fun a c =>
      16 * a + (if c.isDigit then c.toNat - 48
                else if 'a' ≤ c ∧ c ≤ 'f' then c.toNat - 87 else c.toNat - 55)) 0)
  else
    none

/-- Python `int(s)` on a shlex word token (no interior whitespace; a leading
`-` is possible because `-` is in `wordchars`): an optional minus sign followed
by decimal digits; any other shape raises `ValueError` (modelled as `none`). -/
def pyInt? (s : String) : Option Int :=
  match s.data with
  | '-' :: rest => (decDigits? rest).map (fun n => -(n : Int))
  | l => (decDigits? l).map (fun n => (n : Int))

/-- Python `int(s, 16)` on a shlex word token: an optional minus sign followed
by hexadecimal digits; any other shape raises `ValueError`. -/
def pyIntHex? (s : String) : Option Int :=
  match s.data with
  | '-' :: rest => (hexDigits? rest).map (fun n => -(n : Int))
  | l => (hexDigits? l).map (fun n => (n : Int))

/-- `Parser._parseRegister` as a function of the token it reads: `token[0]`
raises `IndexError` on the empty token; a first character other than `r` is an
`AssembleError`; then `int(token[1:])` raises an *uncaught* `ValueError` when
the rest is not a decimal number; finally the index must be in `[0, 7]`. -/
def parseRegisterTok (token : String) : Except PyErr Int :=
  match token.data with
  | [] => .error .indexError
  | c :: _ =>
    if c ≠ 'r' then
      .error (.assembleError ("unexpected token " ++ token ++ " expected register") (-1))
    else
      match pyInt? (token.drop 1) with
      | none => .error .valueError
      | some id =>
        if id < 0 ∨ id > 7 then .error (.assembleError "bad register index" (-1))
        else .ok id

/-- `Parser._parseNumber` as a function of the token it reads: a `0x` prefix
selects hexadecimal, otherwise decimal; `int()` on a malformed token raises an
*uncaught* `ValueError`. -/
def parseNumberTok (tok : String) : Except PyErr Int :=
  if tok.take 2 = "0x" then
    match pyIntHex? (tok.drop 2) with
    | none => .error .valueError
    | some v => .ok v
  else
    match pyInt? tok with
    | none => .error .valueError
    | some v => .ok v

/-- `Parser._match(want)` as a function of the token it reads. -/
def matchTok (want got : String) : Except PyErr Unit :=
  if got ≠ want then
    .error (.assembleError ("unexpected token, wanted " ++ want ++ " got " ++ got) (-1))
  else
    .ok ()

/-- The `except AssembleError` handler wrapping the body of
`Parser._parseInstruction`: an `AssembleError` gets its `lineno` field
overwritten with the lexer's current line and is re-raised; any other
exception (`ValueError`, `IndexError`, ...) propagates unchanged, with no line
information attached. -/
def attachLineno {α : Type} (lineno : Int) : Except PyErr α → Except PyErr α
  | .error (.assembleError msg _) => .error (.assembleError msg lineno)
  | e => e

/-- CPython 2 mixed-type comparison `s > n` for a string `s` and an int `n`:
numeric types compare smaller than every non-numeric object, so any `str` is
greater than any `int`, regardless of contents. -/
def py2StrGtInt (_s : String) (_n : Int) : Bool := true

/-- `CodeBuilder.emitLui` as reached from the `FORM_LUI` branch of
`_parseInstruction`, which passes the raw *string* token as `value` (it omits
the `_parseNumber` conversion).  The check `value > 512` is then a Python 2
str/int comparison, which is always true, so the function always raises
`immediate value out of range` with the token string interpolated into the
message.  The unreachable else branch would be a `TypeError`
(`value & 0x3ff` on a `str`). -/
def emitLuiStr (b : CodeBuilder) (dest : Int) (value : String) :
    Except PyErr CodeBuilder :=
  if py2StrGtInt value 512 then
    .error (.assembleError ("immediate value out of range " ++ value) (-1))
  else
    .error .typeError

/-- The `FORM_LUI` branch of `_parseInstruction` (parse a register, match a
comma, then pass the next raw token to `emitLui`), wrapped in the
line-number-attaching exception handler. -/
def parseLuiInstr (b : CodeBuilder) (lineno : Int) (regTok commaTok valTok : String) :
    Except PyErr CodeBuilder :=
  attachLineno lineno (
    match parseRegisterTok regTok with
    | .error e => .error e
    | .ok dest =>
      match matchTok "," commaTok with
      | .error e => .error e
      | .ok _ => emitLuiStr b dest valTok)

/-- The `FORM_LDI` branch of `_parseInstruction`: parse register, comma and
number; range-check against `±0x7fff`; emit `lui dest, value / 64` (Python 2
floor division) and, only when `value & 0x1f` is non-zero,
`addi dest, dest, value % 64`; all wrapped in the line-number-attaching
handler. -/
def parseLdiInstr (b : CodeBuilder) (lineno : Int) (regTok commaTok valTok : String) :
    Except PyErr CodeBuilder :=
  attachLineno lineno (
    match parseRegisterTok regTok with
    | .error e => .error e
    | .ok dest =>
      match matchTok "," commaTok with
      | .error e => .error e
      | .ok _ =>
        match parseNumberTok valTok with
        | .error e => .error e
        | .ok value =>
          if value > 0x7fff ∨ value < -0x7fff then
            .error (.assembleError "constant out of range" (-1))
          else
            match emitLui b dest (Int.fdiv value 64) with
            | .error e => .error e
            | .ok b1 =>
              if Int.land value 0x1f ≠ 0 then
                emitAddi b1 dest dest (value % 64)
              else
                .ok b1)

/-- Python `str.isdigit` for a shlex token: nonempty and all decimal digits.
Used by the load/store branch (a non-`(` lookahead token must satisfy it) and
by the `res` branch. -/
def pyIsdigit (s : String) : Bool :=
  !s.data.isEmpty && s.data.all Char.isDigit

/-- The offset-token admission test in the `FORM_LOAD`/`FORM_STORE` branch of
`_parseInstruction`: a lookahead other than `(` is accepted as an offset
exactly when it `isdigit()` (it is then pushed back and re-read through
`_parseNumber`). -/
def offsetTokenAdmissible (lookahead : String) : Bool :=
  lookahead ≠ "(" && pyIsdigit lookahead

/-- The unconditional definition of the `__end` label performed by
`Parser.parseSource` after `_parseInstruction` has consumed the whole token
stream, applied to the builder state the scan produced. -/
def finishParseSource (b : CodeBuilder) : Except PyErr CodeBuilder :=
  emitLabel b "__end"

end Assemble

namespace Assemble

/-! Bitwise infrastructure: `Int.testBit`-extensionality and characterizations
of the masking, shifting and patching patterns of `assemble.py` in terms of
`%` and `/`.  These serve the theorems below; none of them mentions the
embedding itself. -/

theorem tb_natCast (m i : Nat) : Int.testBit (m : Int) i = Nat.testBit m i := rfl

theorem tb_negSucc (m i : Nat) : Int.testBit (Int.negSucc m) i = !(Nat.testBit m i) := rfl

theorem int_eq_of_testBit_eq {x y : Int} (h : ∀ i, x.testBit i = y.testBit i) : x = y := by
  cases x with
  | ofNat m =>
    cases y with
    | ofNat n =>
      have : m = n := Nat.eq_of_testBit_eq fun i => h i
      simp [this]
    | negSucc n =>
      exfalso
      have hm : Nat.testBit m (m + n) = false :=
        Nat.testBit_eq_false_of_lt
          (lt_of_lt_of_le (Nat.lt_two_pow m)
            (Nat.pow_le_pow_right (by norm_num) (Nat.le_add_right m n)))
      have hn : Nat.testBit n (m + n) = false :=
        Nat.testBit_eq_false_of_lt
          (lt_of_lt_of_le (Nat.lt_two_pow n)
            (Nat.pow_le_pow_right (by norm_num) (Nat.le_add_left n m)))
      have := h (m + n)
      rw [show Int.testBit (Int.ofNat m) (m + n) = Nat.testBit m (m + n) from rfl,
        tb_negSucc, hm, hn] at this
      simp at this
  | negSucc m =>
    cases y with
    | ofNat n =>
      exfalso
      have hm : Nat.testBit m (m + n) = false :=
        Nat.testBit_eq_false_of_lt
          (lt_of_lt_of_le (Nat.lt_two_pow m)
            (Nat.pow_le_pow_right (by norm_num) (Nat.le_add_right m n)))
      have hn : Nat.testBit n (m + n) = false :=
        Nat.testBit_eq_false_of_lt
          (lt_of_lt_of_le (Nat.lt_two_pow n)
            (Nat.pow_le_pow_right (by norm_num) (Nat.le_add_left n m)))
      have := h (m + n)
      rw [show Int.testBit (Int.ofNat n) (m + n) = Nat.testBit n (m + n) from rfl,
        tb_negSucc, hm, hn] at this
      simp at this
    | negSucc n =>
      have : m = n := Nat.eq_of_testBit_eq fun i => by
        have := h i
        rw [tb_negSucc, tb_negSucc] at this
        exact Bool.not_inj this
      simp [this]

theorem natCast_two_pow (n : Nat) : ((2 ^ n : Nat) : Int) = (2 : Int) ^ n := by
  push_cast
  ring

theorem negSucc_decomp (m n : Nat) :
    Int.negSucc m =
      ((2 ^ n - 1 - m % 2 ^ n : Nat) : Int) +
        (2 : Int) ^ n * (-(((m / 2 ^ n : Nat) : Int) + 1)) := by
  have hpos : 0 < 2 ^ n := Nat.pos_pow_of_pos n (by norm_num)
  have hdm : 2 ^ n * (m / 2 ^ n) + m % 2 ^ n = m := Nat.div_add_mod m (2 ^ n)
  have hm' : ((2 ^ n * (m / 2 ^ n) + m % 2 ^ n : Nat) : Int) = (m : Int) :=
    congrArg (fun t : Nat => (t : Int)) hdm
  rw [Nat.cast_add, Nat.cast_mul, natCast_two_pow] at hm'
  have hlt : m % 2 ^ n < 2 ^ n := Nat.mod_lt _ hpos
  have hsub : ((2 ^ n - 1 - m % 2 ^ n : Nat) : Int) =
      (2 : Int) ^ n - 1 - ((m % 2 ^ n : Nat) : Int) := by
    have hle : 1 + m % 2 ^ n ≤ 2 ^ n := by omega
    rw [Nat.sub_sub, Nat.cast_sub hle, Nat.cast_add, natCast_two_pow, Nat.cast_one]
    ring
  rw [Int.negSucc_eq, hsub, ← hm']
  ring

theorem negSucc_emod_two_pow (m n : Nat) :
    Int.negSucc m % ((2 : Int) ^ n) = ((2 ^ n - 1 - m % 2 ^ n : Nat) : Int) := by
  have hpos : 0 < 2 ^ n := Nat.pos_pow_of_pos n (by norm_num)
  have hlt : m % 2 ^ n < 2 ^ n := Nat.mod_lt _ hpos
  rw [negSucc_decomp m n, Int.add_mul_emod_self_left]
  refine Int.emod_eq_of_lt (by positivity) ?_
  have h : (2 ^ n - 1 - m % 2 ^ n : Nat) < 2 ^ n := by omega
  calc ((2 ^ n - 1 - m % 2 ^ n : Nat) : Int) < ((2 ^ n : Nat) : Int) := by exact_mod_cast h
    _ = (2 : Int) ^ n := natCast_two_pow n

theorem negSucc_ediv_two_pow (m n : Nat) :
    Int.negSucc m / ((2 : Int) ^ n) = Int.negSucc (m / 2 ^ n) := by
  have hpos : 0 < 2 ^ n := Nat.pos_pow_of_pos n (by norm_num)
  have hlt : m % 2 ^ n < 2 ^ n := Nat.mod_lt _ hpos
  have h : (2 ^ n - 1 - m % 2 ^ n : Nat) < 2 ^ n := by omega
  have hcast : ((2 ^ n - 1 - m % 2 ^ n : Nat) : Int) < (2 : Int) ^ n :=
    calc ((2 ^ n - 1 - m % 2 ^ n : Nat) : Int) < ((2 ^ n : Nat) : Int) := by exact_mod_cast h
      _ = (2 : Int) ^ n := natCast_two_pow n
  rw [negSucc_decomp m n, Int.add_mul_ediv_left _ _ (by positivity : ((2 : Int) ^ n) ≠ 0),
    Int.ediv_eq_zero_of_lt (by positivity) hcast, Int.negSucc_eq]
  ring

theorem tb_emod_two_pow (x : Int) (n i : Nat) :
    Int.testBit (x % ((2 : Int) ^ n)) i = (decide (i < n) && x.testBit i) := by
  cases x with
  | ofNat m =>
    have hc : (Int.ofNat m) % ((2 : Int) ^ n) = ((m % 2 ^ n : Nat) : Int) := by
      show ((m : Int)) % ((2 : Int) ^ n) = ((m % 2 ^ n : Nat) : Int)
      push_cast
      rfl
    rw [hc, tb_natCast, Nat.testBit_mod_two_pow]
    rfl
  | negSucc m =>
    rw [negSucc_emod_two_pow, tb_natCast, tb_negSucc]
    have hpos : 0 < 2 ^ n := Nat.pos_pow_of_pos n (by norm_num)
    have hlt : m % 2 ^ n < 2 ^ n := Nat.mod_lt _ hpos
    have h3 : 2 ^ n - 1 - m % 2 ^ n = 2 ^ n - (m % 2 ^ n + 1) := by omega
    rw [h3, Nat.testBit_two_pow_sub_succ hlt]
    by_cases h : i < n
    · simp [h, Nat.testBit_mod_two_pow]
    · simp [h]

theorem tb_ediv_two_pow (x : Int) (n i : Nat) :
    Int.testBit (x / ((2 : Int) ^ n)) i = x.testBit (n + i) := by
  cases x with
  | ofNat m =>
    have hc : (Int.ofNat m) / ((2 : Int) ^ n) = ((m / 2 ^ n : Nat) : Int) := by
      show ((m : Int)) / ((2 : Int) ^ n) = ((m / 2 ^ n : Nat) : Int)
      push_cast
      rfl
    rw [hc, tb_natCast,
      show Int.testBit (Int.ofNat m) (n + i) = Nat.testBit m (n + i) from rfl,
      ← Nat.shiftRight_eq_div_pow, Nat.testBit_shiftRight]
  | negSucc m =>
    rw [negSucc_ediv_two_pow, tb_negSucc, tb_negSucc,
      ← Nat.shiftRight_eq_div_pow, Nat.testBit_shiftRight]

theorem nat_tb_mul_two_pow_sub_one (m n : Nat) : ∀ i,
    Nat.testBit ((m + 1) * 2 ^ n - 1) i = (decide (i < n) || m.testBit (i - n)) := by
  induction n with
  | zero => intro i; simp
  | succ n ih =>
    intro i
    have hpos : 0 < (m + 1) * 2 ^ n := by positivity
    have hk : (m + 1) * 2 ^ (n + 1) = 2 * ((m + 1) * 2 ^ n) := by ring
    have h1 : (m + 1) * 2 ^ (n + 1) - 1 = 2 * ((m + 1) * 2 ^ n - 1) + 1 := by omega
    rw [h1]
    cases i with
    | zero =>
      rw [Nat.testBit_zero]
      have hm2 : (2 * ((m + 1) * 2 ^ n - 1) + 1) % 2 = 1 := by omega
      simp [hm2]
    | succ i =>
      rw [Nat.testBit_add_one]
      have h2 : (2 * ((m + 1) * 2 ^ n - 1) + 1) / 2 = (m + 1) * 2 ^ n - 1 := by omega
      rw [h2, ih i]
      have h4 : i + 1 - (n + 1) = i - n := by omega
      rw [h4]
      by_cases h : i < n
      · have h' : i + 1 < n + 1 := by omega
        simp [h, h']
      · have h' : ¬(i + 1 < n + 1) := by omega
        simp [h, h']

theorem tb_mul_two_pow (x : Int) (n i : Nat) :
    Int.testBit (x * ((2 : Int) ^ n)) i = (decide (n ≤ i) && x.testBit (i - n)) := by
  cases x with
  | ofNat m =>
    have hc : (Int.ofNat m) * ((2 : Int) ^ n) = ((m * 2 ^ n : Nat) : Int) := by
      show ((m : Int)) * ((2 : Int) ^ n) = ((m * 2 ^ n : Nat) : Int)
      push_cast
      ring
    rw [hc, tb_natCast, ← Nat.shiftLeft_eq, Nat.testBit_shiftLeft]
    rfl
  | negSucc m =>
    have hpos : 0 < (m + 1) * 2 ^ n := by positivity
    have hc : Int.negSucc m * ((2 : Int) ^ n) = Int.negSucc ((m + 1) * 2 ^ n - 1) := by
      rw [Int.negSucc_eq, Int.negSucc_eq]
      have hcast : (((m + 1) * 2 ^ n - 1 : Nat) : Int) = ((m : Int) + 1) * (2 : Int) ^ n - 1 := by
        rw [Nat.cast_sub hpos]
        push_cast
        ring
      rw [hcast]
      ring
    rw [hc, tb_negSucc, nat_tb_mul_two_pow_sub_one, tb_negSucc]
    by_cases h : i < n
    · have h' : ¬ n ≤ i := by omega
      simp [h, h']
    · have h' : n ≤ i := by omega
      simp [h, h']

theorem int_shiftLeft_natCast (x : Int) (n : Nat) :
    x <<< ((n : Nat) : Int) = x * ((2 : Int) ^ n) := by
  rw [Int.shiftLeft_eq_mul_pow]
  push_cast
  ring

theorem int_shiftRight_natCast (x : Int) (n : Nat) :
    x >>> ((n : Nat) : Int) = x / ((2 : Int) ^ n) := by
  cases x with
  | ofNat m =>
    rw [show Int.ofNat m = ((m : Nat) : Int) from rfl, Int.shiftRight_coe_nat,
      Nat.shiftRight_eq_div_pow]
    push_cast
    rfl
  | negSucc m =>
    rw [Int.shiftRight_negSucc, Nat.shiftRight_eq_div_pow, negSucc_ediv_two_pow]

theorem tb_shiftLeft (x : Int) (n i : Nat) :
    Int.testBit (x <<< ((n : Nat) : Int)) i = (decide (n ≤ i) && x.testBit (i - n)) := by
  rw [int_shiftLeft_natCast, tb_mul_two_pow]

theorem tb_shiftRight (x : Int) (n i : Nat) :
    Int.testBit (x >>> ((n : Nat) : Int)) i = x.testBit (n + i) := by
  rw [int_shiftRight_natCast, tb_ediv_two_pow]

theorem int_land_mask_eq_emod (x : Int) (n : Nat) :
    Int.land x ((2 : Int) ^ n - 1) = x % ((2 : Int) ^ n) := by
  apply int_eq_of_testBit_eq
  intro i
  rw [Int.testBit_land, tb_emod_two_pow]
  have hmask : ((2 : Int) ^ n - 1) = ((2 ^ n - 1 : Nat) : Int) := by
    have : 1 ≤ 2 ^ n := Nat.one_le_two_pow
    push_cast [this]
    ring
  rw [hmask, tb_natCast, Nat.testBit_two_pow_sub_one]
  exact Bool.and_comm _ _

theorem tb_mask_const (x : Int) (n i : Nat) :
    Int.testBit (Int.land x ((2 : Int) ^ n - 1)) i = (decide (i < n) && x.testBit i) := by
  rw [int_land_mask_eq_emod, tb_emod_two_pow]

end Assemble

namespace Assemble

/-! Literal instances of the characterization lemmas, matching the exact
masks and shift amounts appearing in `assemble.py`. -/

theorem tb_shl3 (x : Int) (i : Nat) :
    Int.testBit (x <<< (3 : Int)) i = (decide (3 ≤ i) && x.testBit (i - 3)) := by
  simpa using tb_shiftLeft x 3 i

theorem tb_shl6 (x : Int) (i : Nat) :
    Int.testBit (x <<< (6 : Int)) i = (decide (6 ≤ i) && x.testBit (i - 6)) := by
  simpa using tb_shiftLeft x 6 i

theorem tb_shl9 (x : Int) (i : Nat) :
    Int.testBit (x <<< (9 : Int)) i = (decide (9 ≤ i) && x.testBit (i - 9)) := by
  simpa using tb_shiftLeft x 9 i

theorem tb_shl10 (x : Int) (i : Nat) :
    Int.testBit (x <<< (10 : Int)) i = (decide (10 ≤ i) && x.testBit (i - 10)) := by
  simpa using tb_shiftLeft x 10 i

theorem tb_shl12 (x : Int) (i : Nat) :
    Int.testBit (x <<< (12 : Int)) i = (decide (12 ≤ i) && x.testBit (i - 12)) := by
  simpa using tb_shiftLeft x 12 i

theorem tb_shl13 (x : Int) (i : Nat) :
    Int.testBit (x <<< (13 : Int)) i = (decide (13 ≤ i) && x.testBit (i - 13)) := by
  simpa using tb_shiftLeft x 13 i

theorem tb_shr3 (x : Int) (i : Nat) :
    Int.testBit (x >>> (3 : Int)) i = x.testBit (3 + i) := by
  simpa using tb_shiftRight x 3 i

theorem tb_shr6 (x : Int) (i : Nat) :
    Int.testBit (x >>> (6 : Int)) i = x.testBit (6 + i) := by
  simpa using tb_shiftRight x 6 i

theorem tb_land_7 (x : Int) (i : Nat) :
    Int.testBit (Int.land x 7) i = (decide (i < 3) && x.testBit i) := by
  rw [show (7 : Int) = (2 : Int) ^ 3 - 1 by norm_num]
  exact tb_mask_const x 3 i

theorem tb_land_15 (x : Int) (i : Nat) :
    Int.testBit (Int.land x 15) i = (decide (i < 4) && x.testBit i) := by
  rw [show (15 : Int) = (2 : Int) ^ 4 - 1 by norm_num]
  exact tb_mask_const x 4 i

theorem tb_land_63 (x : Int) (i : Nat) :
    Int.testBit (Int.land x 63) i = (decide (i < 6) && x.testBit i) := by
  rw [show (63 : Int) = (2 : Int) ^ 6 - 1 by norm_num]
  exact tb_mask_const x 6 i

theorem tb_land_127 (x : Int) (i : Nat) :
    Int.testBit (Int.land x 127) i = (decide (i < 7) && x.testBit i) := by
  rw [show (127 : Int) = (2 : Int) ^ 7 - 1 by norm_num]
  exact tb_mask_const x 7 i

theorem tb_land_1023 (x : Int) (i : Nat) :
    Int.testBit (Int.land x 1023) i = (decide (i < 10) && x.testBit i) := by
  rw [show (1023 : Int) = (2 : Int) ^ 10 - 1 by norm_num]
  exact tb_mask_const x 10 i

theorem tb_land_4095 (x : Int) (i : Nat) :
    Int.testBit (Int.land x 4095) i = (decide (i < 12) && x.testBit i) := by
  rw [show (4095 : Int) = (2 : Int) ^ 12 - 1 by norm_num]
  exact tb_mask_const x 12 i

theorem land_7_eq (x : Int) : Int.land x 7 = x % 8 := by
  rw [show (7 : Int) = (2 : Int) ^ 3 - 1 by norm_num,
    show (8 : Int) = (2 : Int) ^ 3 by norm_num]
  exact int_land_mask_eq_emod x 3

theorem land_15_eq (x : Int) : Int.land x 15 = x % 16 := by
  rw [show (15 : Int) = (2 : Int) ^ 4 - 1 by norm_num,
    show (16 : Int) = (2 : Int) ^ 4 by norm_num]
  exact int_land_mask_eq_emod x 4

theorem land_31_eq (x : Int) : Int.land x 31 = x % 32 := by
  rw [show (31 : Int) = (2 : Int) ^ 5 - 1 by norm_num,
    show (32 : Int) = (2 : Int) ^ 5 by norm_num]
  exact int_land_mask_eq_emod x 5

theorem land_63_eq (x : Int) : Int.land x 63 = x % 64 := by
  rw [show (63 : Int) = (2 : Int) ^ 6 - 1 by norm_num,
    show (64 : Int) = (2 : Int) ^ 6 by norm_num]
  exact int_land_mask_eq_emod x 6

theorem land_127_eq (x : Int) : Int.land x 127 = x % 128 := by
  rw [show (127 : Int) = (2 : Int) ^ 7 - 1 by norm_num,
    show (128 : Int) = (2 : Int) ^ 7 by norm_num]
  exact int_land_mask_eq_emod x 7

theorem land_1023_eq (x : Int) : Int.land x 1023 = x % 1024 := by
  rw [show (1023 : Int) = (2 : Int) ^ 10 - 1 by norm_num,
    show (1024 : Int) = (2 : Int) ^ 10 by norm_num]
  exact int_land_mask_eq_emod x 10

theorem land_4095_eq (x : Int) : Int.land x 4095 = x % 4096 := by
  rw [show (4095 : Int) = (2 : Int) ^ 12 - 1 by norm_num,
    show (4096 : Int) = (2 : Int) ^ 12 by norm_num]
  exact int_land_mask_eq_emod x 12

theorem shr3_eq (x : Int) : x >>> (3 : Int) = x / 8 := by
  rw [show (8 : Int) = (2 : Int) ^ 3 by norm_num]
  simpa using int_shiftRight_natCast x 3

theorem shr6_eq (x : Int) : x >>> (6 : Int) = x / 64 := by
  rw [show (64 : Int) = (2 : Int) ^ 6 by norm_num]
  simpa using int_shiftRight_natCast x 6

theorem tb_int_1023 (i : Nat) : Int.testBit 1023 i = decide (i < 10) := by
  have h1 : (1023 : Int) = ((2 ^ 10 - 1 : Nat) : Int) := by norm_num
  rw [h1, tb_natCast, Nat.testBit_two_pow_sub_one]

theorem tb_int_4095 (i : Nat) : Int.testBit 4095 i = decide (i < 12) := by
  have h1 : (4095 : Int) = ((2 ^ 12 - 1 : Nat) : Int) := by norm_num
  rw [h1, tb_natCast, Nat.testBit_two_pow_sub_one]

theorem tb_int_0 (i : Nat) : Int.testBit 0 i = false := by
  rw [show Int.testBit 0 i = Nat.testBit 0 i from rfl, Nat.zero_testBit]

theorem nat_tb_3 (i : Nat) : Nat.testBit 3 i = decide (i < 2) := by
  match i with
  | 0 => decide
  | 1 => decide
  | (j + 2) =>
    have h : (3 : Nat) < 2 ^ (j + 2) :=
      calc (3 : Nat) < 2 ^ 2 := by norm_num
        _ ≤ 2 ^ (j + 2) := Nat.pow_le_pow_right (by norm_num) (by omega)
    have h2 : ¬ (j + 2 < 2) := by omega
    simp [Nat.testBit_eq_false_of_lt h, h2]

theorem nat_tb_4 (i : Nat) : Nat.testBit 4 i = decide (i = 2) := by
  match i with
  | 0 => decide
  | 1 => decide
  | 2 => decide
  | (j + 3) =>
    have h : (4 : Nat) < 2 ^ (j + 3) :=
      calc (4 : Nat) < 2 ^ 3 := by norm_num
        _ ≤ 2 ^ (j + 3) := Nat.pow_le_pow_right (by norm_num) (by omega)
    have h2 : ¬ (j + 3 = 2) := by omega
    simp [Nat.testBit_eq_false_of_lt h, h2]

theorem tb_int_3 (i : Nat) : Int.testBit 3 i = decide (i < 2) := by
  rw [show Int.testBit 3 i = Nat.testBit 3 i from rfl, nat_tb_3]

theorem tb_int_4 (i : Nat) : Int.testBit 4 i = decide (i = 2) := by
  rw [show Int.testBit 4 i = Nat.testBit 4 i from rfl, nat_tb_4]

theorem tb_of_nonneg_lt {x : Int} {n : Nat} (h0 : 0 ≤ x) (h : x < (2 : Int) ^ n)
    {i : Nat} (hi : n ≤ i) : x.testBit i = false := by
  obtain ⟨d, rfl⟩ := Int.eq_ofNat_of_zero_le h0
  rw [tb_natCast]
  apply Nat.testBit_eq_false_of_lt
  have hd : d < 2 ^ n := by
    have := h
    rw [← natCast_two_pow] at this
    exact_mod_cast this
  exact lt_of_lt_of_le hd (Nat.pow_le_pow_right (by norm_num) hi)

end Assemble

namespace Assemble

theorem tb_int_two_pow_sub_one (n i : Nat) :
    Int.testBit ((2 : Int) ^ n - 1) i = decide (i < n) := by
  rw [show ((2 : Int) ^ n - 1) = ((2 ^ n - 1 : Nat) : Int) by
      rw [Nat.cast_sub Nat.one_le_two_pow, natCast_two_pow, Nat.cast_one],
    tb_natCast, Nat.testBit_two_pow_sub_one]

theorem int_land_lnot_mask_eq (x : Int) (n : Nat) :
    Int.land x (Int.lnot ((2 : Int) ^ n - 1)) = (2 : Int) ^ n * (x / (2 : Int) ^ n) := by
  apply int_eq_of_testBit_eq
  intro i
  rw [Int.testBit_land, Int.testBit_lnot, tb_int_two_pow_sub_one, mul_comm,
    tb_mul_two_pow]
  by_cases h : i < n
  · have h' : ¬ n ≤ i := by omega
    simp [h, h']
  · have h' : n ≤ i := by omega
    have he : n + (i - n) = i := by omega
    rw [tb_ediv_two_pow, he]
    simp [h, h']

theorem land_lnot_4095_eq (x : Int) :
    Int.land x (Int.lnot 4095) = 4096 * (x / 4096) := by
  rw [show (4095 : Int) = (2 : Int) ^ 12 - 1 by norm_num,
    show (4096 : Int) = (2 : Int) ^ 12 by norm_num]
  exact int_land_lnot_mask_eq x 12

theorem land_lnot_1023_eq (x : Int) :
    Int.land x (Int.lnot 1023) = 1024 * (x / 1024) := by
  rw [show (1023 : Int) = (2 : Int) ^ 10 - 1 by norm_num,
    show (1024 : Int) = (2 : Int) ^ 10 by norm_num]
  exact int_land_lnot_mask_eq x 10

theorem patch_emod_gen (w v : Int) (n : Nat) :
    (Int.lor (Int.land w (Int.lnot ((2 : Int) ^ n - 1))) (Int.land v ((2 : Int) ^ n - 1)))
        % ((2 : Int) ^ n) = v % ((2 : Int) ^ n) := by
  apply int_eq_of_testBit_eq
  intro i
  rw [tb_emod_two_pow, tb_emod_two_pow, Int.testBit_lor, Int.testBit_land,
    Int.testBit_land, Int.testBit_lnot, tb_int_two_pow_sub_one]
  by_cases h : i < n <;> simp [h]

theorem patch_ediv_gen (w v : Int) (n : Nat) :
    (Int.lor (Int.land w (Int.lnot ((2 : Int) ^ n - 1))) (Int.land v ((2 : Int) ^ n - 1)))
        / ((2 : Int) ^ n) = w / ((2 : Int) ^ n) := by
  apply int_eq_of_testBit_eq
  intro i
  rw [tb_ediv_two_pow, tb_ediv_two_pow, Int.testBit_lor, Int.testBit_land,
    Int.testBit_land, Int.testBit_lnot, tb_int_two_pow_sub_one]
  have h : ¬ (n + i < n) := by omega
  simp [h]

theorem patch12_emod (w v : Int) :
    (Int.lor (Int.land w (Int.lnot 0xfff)) (Int.land v 0xfff)) % 4096 = v % 4096 := by
  rw [show (0xfff : Int) = (2 : Int) ^ 12 - 1 by norm_num,
    show (4096 : Int) = (2 : Int) ^ 12 by norm_num]
  exact patch_emod_gen w v 12

theorem patch12_ediv (w v : Int) :
    (Int.lor (Int.land w (Int.lnot 0xfff)) (Int.land v 0xfff)) / 4096 = w / 4096 := by
  rw [show (0xfff : Int) = (2 : Int) ^ 12 - 1 by norm_num,
    show (4096 : Int) = (2 : Int) ^ 12 by norm_num]
  exact patch_ediv_gen w v 12

theorem patch10_emod (w v : Int) :
    (Int.lor (Int.land w (Int.lnot 0x3ff)) (Int.land v 0x3ff)) % 1024 = v % 1024 := by
  rw [show (0x3ff : Int) = (2 : Int) ^ 10 - 1 by norm_num,
    show (1024 : Int) = (2 : Int) ^ 10 by norm_num]
  exact patch_emod_gen w v 10

theorem patch10_ediv (w v : Int) :
    (Int.lor (Int.land w (Int.lnot 0x3ff)) (Int.land v 0x3ff)) / 1024 = w / 1024 := by
  rw [show (0x3ff : Int) = (2 : Int) ^ 10 - 1 by norm_num,
    show (1024 : Int) = (2 : Int) ^ 10 by norm_num]
  exact patch_ediv_gen w v 10

theorem int_zero_lor (x : Int) : Int.lor 0 x = x := by
  apply int_eq_of_testBit_eq
  intro i
  rw [Int.testBit_lor, tb_int_0]
  simp

theorem getD_concat_length (l : List Int) (v : Int) : (l ++ [v]).getD l.length 0 = v := by
  induction l with
  | nil => rfl
  | cons a l ih => simpa using ih

theorem getD_append2_left (l : List Int) (a c : Int) : (l ++ [a, c]).getD l.length 0 = a := by
  induction l with
  | nil => rfl
  | cons x l ih => simpa using ih

theorem getD_append2_right (l : List Int) (a c : Int) :
    (l ++ [a, c]).getD (l.length + 1) 0 = c := by
  induction l with
  | nil => rfl
  | cons x l ih => simpa using ih

theorem set_append2_left (l : List Int) (a c x : Int) :
    (l ++ [a, c]).set l.length x = l ++ [x, c] := by
  induction l with
  | nil => rfl
  | cons y l ih => simp [List.set, ih]

theorem set_append2_right (l : List Int) (a c x : Int) :
    (l ++ [a, c]).set (l.length + 1) x = l ++ [a, x] := by
  induction l with
  | nil => rfl
  | cons y l ih => simp [List.set, ih]

theorem lookup_append_right_of_none {l : List (String × Int)} {k : String}
    (h : l.lookup k = none) (v : Int) : (l ++ [(k, v)]).lookup k = some v := by
  induction l with
  | nil => simp [List.lookup]
  | cons p l ih =>
    obtain ⟨pk, pv⟩ := p
    cases hk : k == pk with
    | true =>
      rw [List.lookup_cons, hk] at h
      simp at h
    | false =>
      rw [List.lookup_cons, hk] at h
      rw [List.cons_append, List.lookup_cons, hk]
      exact ih h

theorem lookup_append_isSome {l : List (String × Int)} (k : String) (v : Int) :
    ((l ++ [(k, v)]).lookup k).isSome := by
  induction l with
  | nil => simp [List.lookup]
  | cons p l ih =>
    obtain ⟨pk, pv⟩ := p
    rw [List.cons_append, List.lookup_cons]
    cases hk : k == pk with
    | true => simp
    | false => exact ih

end Assemble

namespace Assemble

/-- C2, counterexample: the claim says each emitted word is stored at image
index equal to the PC at the moment of emission, and that after `org 5` the
next word occupies image index 5.  In fact, after `org 5` from the initial
state the PC is 5 but the next `emitData` appends at index 0: the image is
`[7]`, whose index-5 entry does not hold the emitted word. -/
theorem C2_counterexample :
    setOrigin initBuilder 5 = .ok { fixups := [], code := [], labels := [], currentPc := 5 } ∧
    getPc { fixups := [], code := [], labels := [], currentPc := 5 } = 5 ∧
    (emitData { fixups := [], code := [], labels := [], currentPc := 5 } 7).code = [7] ∧
    (emitData { fixups := [], code := [], labels := [], currentPc := 5 } 7).code.getD 0 0 = 7 ∧
    (emitData { fixups := [], code := [], labels := [], currentPc := 5 } 7).code.getD 5 0 ≠ 7 := by
  refine ⟨rfl, rfl, rfl, rfl, ?_⟩
  decide

/-- C2, amended: each emitted word is appended at image index `len(code)` (the
number of previously emitted words) while the PC advances by one; `org` below
the current PC raises the overlapping-origin error and otherwise succeeds; and
`index = address` holds exactly while the PC equals the image length (the
state of affairs until the first forward `org`), an invariant `emitData`
preserves. -/
theorem C2_amended_image_indexing (b : CodeBuilder) (v whereAddr : Int)
    (hinv : getPc b = (b.code.length : Int)) :
    (emitData b v).code = b.code ++ [v] ∧
    (emitData b v).code.getD b.code.length 0 = v ∧
    getPc (emitData b v) = getPc b + 1 ∧
    (setOrigin b whereAddr = .error (.assembleError "overlapping origin" (-1)) ↔
      whereAddr < getPc b) ∧
    (¬ whereAddr < getPc b → setOrigin b whereAddr = .ok { b with currentPc := whereAddr }) ∧
    ((emitData b v).code.getD (getPc b).toNat 0 = v ∧
      getPc (emitData b v) = ((emitData b v).code.length : Int)) := by
  refine ⟨rfl, getD_concat_length _ _, rfl, ?_, ?_, ?_, ?_⟩
  · rw [setOrigin]
    split
    · next hw => simp [getPc, hw]
    · next hw => simp [getPc, hw]
  · intro hw
    simp only [getPc] at hw
    rw [setOrigin, if_neg hw]
  · rw [hinv]
    have h := getD_concat_length b.code v
    simpa [emitData] using h
  · rw [emitData, getPc] at *
    simp
    omega

/-- C2 amended-theorem witness at the initial builder, value 7, origin 3. -/
theorem C2_amended_witness :
    (getPc initBuilder = (initBuilder.code.length : Int)) ∧
    ((emitData initBuilder 7).code = initBuilder.code ++ [7] ∧
     (emitData initBuilder 7).code.getD initBuilder.code.length 0 = 7 ∧
     getPc (emitData initBuilder 7) = getPc initBuilder + 1 ∧
     (setOrigin initBuilder 3 = .error (.assembleError "overlapping origin" (-1)) ↔
       (3 : Int) < getPc initBuilder) ∧
     (¬ (3 : Int) < getPc initBuilder →
       setOrigin initBuilder 3 = .ok { initBuilder with currentPc := 3 }) ∧
     ((emitData initBuilder 7).code.getD (getPc initBuilder).toNat 0 = 7 ∧
       getPc (emitData initBuilder 7) = ((emitData initBuilder 7).code.length : Int))) :=
  ⟨by decide, C2_amended_image_indexing initBuilder 7 3 (by decide)⟩

/-- C10 (confirmed): a program that successfully defines its own `__end` label
during the scan always fails afterwards, because `parseSource` unconditionally
defines `__end` at the final PC once the token stream is exhausted and the
label table rejects duplicates with the redefined-label error. -/
theorem C10_end_label_reserved (b b' : CodeBuilder)
    (h : emitLabel b "__end" = .ok b') :
    finishParseSource b' = .error (.assembleError "redefined label __end" (-1)) := by
  rw [emitLabel] at h
  split at h
  · exact absurd h (by simp)
  · next hl =>
    have hb' : b' = { b with labels := b.labels ++ [("__end", getPc b)] } := by
      injection h with h'
      exact h'.symm
    subst hb'
    rw [finishParseSource, emitLabel]
    have hs := lookup_append_isSome (l := b.labels) "__end" (getPc b)
    simp only [hs, if_true]
    rfl

/-- C10 witness: the one-line program `__end:` scans fine and then the final
implicit `__end` definition fails. -/
theorem C10_witness :
    emitLabel initBuilder "__end" =
      .ok { fixups := [], code := [], labels := [("__end", 0)], currentPc := 0 } ∧
    finishParseSource { fixups := [], code := [], labels := [("__end", 0)], currentPc := 0 } =
      .error (.assembleError "redefined label __end" (-1)) :=
  ⟨by decide,
   C10_end_label_reserved initBuilder
     { fixups := [], code := [], labels := [("__end", 0)], currentPc := 0 } (by decide)⟩

/-- C9 (code bug): a register token `r` followed by a non-digit (`rx`), and a
non-numeric token where a numeric literal is required (`foo`), make `int()`
raise a Python `ValueError`, which is not an `AssembleError`; the
`except AssembleError` handler of `_parseInstruction` does not catch it, so
the failure carries no source line, contradicting the claim that every
malformed input produces a structured assembler error with a line number. -/
theorem C9_uncaught_value_errors :
    parseRegisterTok "rx" = .error .valueError ∧
    parseNumberTok "foo" = .error .valueError ∧
    (∀ lineno : Int, attachLineno (α := CodeBuilder) lineno (.error .valueError) =
      .error .valueError) :=
  ⟨by decide, by decide, fun _ => rfl⟩

/-- C1 (code bug): the FORM_LUI branch of `_parseInstruction` passes the raw
token string to `emitLui` (it never calls `_parseNumber`), and in Python 2 a
`str` compares greater than any `int`, so `value > 512` is true and *every*
`lui` instruction fails with the immediate-out-of-range error; no class-4 word
is ever emitted through the parser, whatever the immediate. -/
theorem C1_lui_always_out_of_range (b : CodeBuilder) (lineno : Int)
    (regTok valTok : String) (dest : Int)
    (hreg : parseRegisterTok regTok = .ok dest) :
    parseLuiInstr b lineno regTok "," valTok =
      .error (.assembleError ("immediate value out of range " ++ valTok) lineno) := by
  simp [parseLuiInstr, hreg, matchTok, emitLuiStr, py2StrGtInt, attachLineno]

/-- C1 witness: `lui r0, 5` on line 3 fails with the out-of-range error even
though 5 is well inside [-512, 512]. -/
theorem C1_witness :
    parseRegisterTok "r0" = .ok 0 ∧
    parseLuiInstr initBuilder 3 "r0" "," "5" =
      .error (.assembleError ("immediate value out of range " ++ "5") 3) :=
  ⟨by decide, C1_lui_always_out_of_range initBuilder 3 "r0" "5" 0 (by decide)⟩

/-- C7, counterexample: the load offset 512 passes the parser's only check on
offset tokens (all decimal digits), `_parseNumber` returns 512, and `emitLoad`
raises no error: it encodes the word 40968, whose class field reads back 5,
not the load class 1 — the out-of-range offset was encoded and corrupted the
class bits instead of raising an immediate-range error. -/
theorem C7_counterexample :
    offsetTokenAdmissible "512" = true ∧
    parseNumberTok "512" = .ok 512 ∧
    (emitLoad initBuilder 0 1 512).code = [40968] ∧
    ((40968 : Int) >>> (13 : Int)) = 5 ∧ ((5 : Int) ≠ 1) := by
  refine ⟨by decide, by decide, by decide, by decide, by decide⟩

/-- C7, amended: load and store offsets are not validated at all.  `emitLoad`
and `emitStore` are total (each appends exactly one word and can never raise);
`emitStore` silently reduces the offset modulo 128 (its split 7-bit field);
and `emitLoad` ORs the offset into bit 6 and up without masking, so an offset
that does not fit 6 bits silently corrupts the higher fields of the word. -/
theorem C7_amended_no_offset_validation (b : CodeBuilder) (dest src ptr offset : Int) :
    ((emitLoad b dest ptr offset).code.length = b.code.length + 1) ∧
    ((emitStore b src ptr offset).code.length = b.code.length + 1) ∧
    emitStore b src ptr offset = emitStore b src ptr (offset % 128) ∧
    (emitLoad b dest ptr offset).code.getD b.code.length 0 =
      Int.lor ((1 : Int) <<< (13 : Int))
        (Int.lor (Int.lor (offset <<< (6 : Int)) (ptr <<< (3 : Int))) dest) := by
  refine ⟨by simp [emitLoad, emitInstr, emitData], by simp [emitStore, emitInstr, emitData],
    ?_, getD_concat_length _ _⟩
  rw [emitStore, emitStore, emitInstr, emitInstr]
  have h1 : Int.land (offset >>> (3 : Int)) 0xf = Int.land ((offset % 128) >>> (3 : Int)) 0xf := by
    rw [land_15_eq, land_15_eq, shr3_eq, shr3_eq]
    omega
  have h2 : Int.land offset 7 = Int.land (offset % 128) 7 := by
    rw [land_7_eq, land_7_eq]
    omega
  rw [h1, h2]

end Assemble

namespace Assemble

/-- C8 (confirmed): a conditional-branch reference to any label is recorded
during the scan with no check at all (the scan cannot fail on it), an
undefined label makes `doFixups` fail with the unknown-label error carrying
the line recorded in the fixup, and a label defined *after* the reference is
entered in the table and looked up normally at resolution time. -/
theorem C8_undefined_labels_fail_at_resolution (b : CodeBuilder) (lineno : Int)
    (target : String) (condition : Int)
    (labels : List (String × Int)) (code : List Int) (f : Fixup) (rest : List Fixup)
    (hundef : labels.lookup f.target = none)
    (hnew : b.labels.lookup target = none) :
    (emitConditionalBranch b lineno target condition).fixups =
      b.fixups ++ [⟨FIXUP_CONDITIONAL, b.code.length, getPc b, target, lineno⟩] ∧
    (emitConditionalBranch b lineno target condition).code =
      b.code ++ [Int.lor ((5 : Int) <<< (13 : Int)) (condition <<< (10 : Int))] ∧
    doFixupsGo labels (f :: rest) code =
      .error (.assembleError ("unknown label " ++ f.target) f.lineno) ∧
    (∃ b2, emitLabel (emitConditionalBranch b lineno target condition) target = .ok b2 ∧
      b2.labels.lookup target = some (getPc b + 1)) := by
  refine ⟨rfl, rfl, ?_, ?_⟩
  · simp [doFixupsGo, applyFixup, hundef]
  · have hl : (((emitConditionalBranch b lineno target condition).labels.lookup target).isSome) = false := by
      simp [emitConditionalBranch, emitInstr, emitData, hnew]
    refine ⟨{ (emitConditionalBranch b lineno target condition) with
        labels := (emitConditionalBranch b lineno target condition).labels ++
          [(target, getPc (emitConditionalBranch b lineno target condition))] }, ?_, ?_⟩
    · rw [emitLabel, if_neg (by simp [hl])]
    · exact lookup_append_right_of_none hnew _

/-- C8 witness: a forward reference `bcs fwd` recorded from the initial state,
an unknown-label fixup that aborts resolution with its recorded line 4, and
the later definition of `fwd` resolving to address 1. -/
theorem C8_witness :
    (List.lookup "gone" ([] : List (String × Int)) = none) ∧
    (initBuilder.labels.lookup "fwd" = none) ∧
    ((emitConditionalBranch initBuilder 4 "fwd" 2).fixups =
      initBuilder.fixups ++ [⟨FIXUP_CONDITIONAL, initBuilder.code.length, getPc initBuilder, "fwd", 4⟩] ∧
    (emitConditionalBranch initBuilder 4 "fwd" 2).code =
      initBuilder.code ++ [Int.lor ((5 : Int) <<< (13 : Int)) ((2 : Int) <<< (10 : Int))] ∧
    doFixupsGo [] [⟨FIXUP_CONDITIONAL, 0, 0, "gone", 4⟩] [] =
      .error (.assembleError ("unknown label " ++ "gone") 4) ∧
    (∃ b2, emitLabel (emitConditionalBranch initBuilder 4 "fwd" 2) "fwd" = .ok b2 ∧
      b2.labels.lookup "fwd" = some (getPc initBuilder + 1))) :=
  ⟨by decide, by decide,
   C8_undefined_labels_fail_at_resolution initBuilder 4 "fwd" 2 [] []
     ⟨FIXUP_CONDITIONAL, 0, 0, "gone", 4⟩ [] (by decide) (by decide)⟩

/-- C6 (confirmed): for `ldi rd, imm` with a register token parsing to `dest`
and a numeric token parsing to `value`, an immediate outside ±0x7fff raises
the constant-out-of-range error (with the handler's line number); inside the
range, the instruction emits the single `lui` word of `value / 64` (Python 2
floor division) when the low five bits of `value` are zero, and that word
followed by the `addi` word of `value % 64` otherwise; every `_emit` appends
exactly one word, so these are one-word and two-word expansions. -/
theorem C6_ldi_decomposition (b : CodeBuilder) (lineno : Int) (regTok valTok : String)
    (dest value : Int)
    (hreg : parseRegisterTok regTok = .ok dest)
    (hval : parseNumberTok valTok = .ok value) :
    ((value > 0x7fff ∨ value < -0x7fff) →
      parseLdiInstr b lineno regTok "," valTok =
        .error (.assembleError "constant out of range" lineno)) ∧
    (-0x7fff ≤ value → value ≤ 0x7fff →
      ((value % 32 = 0 →
        parseLdiInstr b lineno regTok "," valTok =
          .ok (emitInstr b 4
            (Int.lor ((Int.land (Int.fdiv value 64) 0x3ff) <<< (3 : Int)) dest))) ∧
       (value % 32 ≠ 0 →
        parseLdiInstr b lineno regTok "," valTok =
          .ok (emitInstr
            (emitInstr b 4 (Int.lor ((Int.land (Int.fdiv value 64) 0x3ff) <<< (3 : Int)) dest))
            3
            (Int.lor (Int.lor ((Int.land (value % 64) 0x7f) <<< (6 : Int)) (dest <<< (3 : Int)))
              dest))))) ∧
    (∀ (bb : CodeBuilder) (ty w : Int), (emitInstr bb ty w).code.length = bb.code.length + 1) := by
  have hfd : Int.fdiv value 64 = value / 64 := Int.fdiv_eq_ediv _ (by norm_num)
  refine ⟨?_, ?_, ?_⟩
  · intro hout
    simp [parseLdiInstr, hreg, matchTok, hval, attachLineno, hout]
  · intro hlo hhi
    have hin : ¬ (value > 0x7fff ∨ value < -0x7fff) := by omega
    have hq : ¬ (Int.fdiv value 64 > 512 ∨ Int.fdiv value 64 < -512) := by
      rw [hfd]
      omega
    have hr : ¬ (value % 64 > 63 ∨ value % 64 < -63) := by omega
    constructor
    · intro h32
      have hc : ¬ (Int.land value 0x1f ≠ 0) := by
        rw [land_31_eq]
        omega
      simp only [parseLdiInstr, hreg, matchTok, hval, attachLineno]
      rw [if_neg (by decide)]
      simp only [if_neg hin]
      rw [emitLui, if_neg hq]
      simp only [if_neg hc]
    · intro h32
      have hc : Int.land value 0x1f ≠ 0 := by
        rw [land_31_eq]
        omega
      simp only [parseLdiInstr, hreg, matchTok, hval, attachLineno]
      rw [if_neg (by decide)]
      simp only [if_neg hin]
      rw [emitLui, if_neg hq]
      simp only [if_pos hc]
      rw [emitAddi, if_neg hr]
  · intro bb ty w
    simp [emitInstr, emitData]

/-- C6 witness: `ldi r0, 1` (line 2) has non-zero low bits and expands to the
two words `lui r0, 0` and `addi r0, r0, 1`. -/
theorem C6_witness :
    (parseRegisterTok "r0" = .ok 0) ∧
    (parseNumberTok "1" = .ok 1) ∧
    (((1 : Int) > 0x7fff ∨ (1 : Int) < -0x7fff) →
      parseLdiInstr initBuilder 2 "r0" "," "1" =
        .error (.assembleError "constant out of range" 2)) ∧
    (-0x7fff ≤ (1 : Int) → (1 : Int) ≤ 0x7fff →
      (((1 : Int) % 32 = 0 →
        parseLdiInstr initBuilder 2 "r0" "," "1" =
          .ok (emitInstr initBuilder 4
            (Int.lor ((Int.land (Int.fdiv 1 64) 0x3ff) <<< (3 : Int)) 0))) ∧
       ((1 : Int) % 32 ≠ 0 →
        parseLdiInstr initBuilder 2 "r0" "," "1" =
          .ok (emitInstr
            (emitInstr initBuilder 4 (Int.lor ((Int.land (Int.fdiv 1 64) 0x3ff) <<< (3 : Int)) 0))
            3
            (Int.lor (Int.lor ((Int.land ((1 : Int) % 64) 0x7f) <<< (6 : Int)) ((0 : Int) <<< (3 : Int)))
              0))))) ∧
    (∀ (bb : CodeBuilder) (ty w : Int), (emitInstr bb ty w).code.length = bb.code.length + 1) :=
  ⟨by decide, by decide,
   (C6_ldi_decomposition initBuilder 2 "r0" "1" 0 1 (by decide) (by decide)).1,
   (C6_ldi_decomposition initBuilder 2 "r0" "1" 0 1 (by decide) (by decide)).2.1,
   (C6_ldi_decomposition initBuilder 2 "r0" "1" 0 1 (by decide) (by decide)).2.2⟩

end Assemble

namespace Assemble

theorem int_lor_comm (x y : Int) : Int.lor x y = Int.lor y x := by
  apply int_eq_of_testBit_eq
  intro i
  rw [Int.testBit_lor, Int.testBit_lor, Bool.or_comm]

theorem int_lor_assoc (x y z : Int) :
    Int.lor (Int.lor x y) z = Int.lor x (Int.lor y z) := by
  apply int_eq_of_testBit_eq
  intro i
  rw [Int.testBit_lor, Int.testBit_lor, Int.testBit_lor, Int.testBit_lor, Bool.or_assoc]

theorem nat_testBit_two_pow_mul_add {b : Nat} (q : Nat) {n : Nat} (hb : b < 2 ^ n) : ∀ i,
    Nat.testBit (2 ^ n * q + b) i = (if i < n then b.testBit i else q.testBit (i - n)) := by
  induction n generalizing b with
  | zero =>
    intro i
    have hb0 : b = 0 := by omega
    subst hb0
    simp
  | succ n ih =>
    intro i
    have hp : 2 ^ (n + 1) * q = 2 * (2 ^ n * q) := by ring
    have hsplit : 2 ^ (n + 1) * q + b = 2 * (2 ^ n * q + b / 2) + b % 2 := by omega
    have hp2 : (2 : Nat) ^ (n + 1) = 2 * 2 ^ n := by ring
    have hb2 : b / 2 < 2 ^ n := by omega
    rw [hsplit]
    cases i with
    | zero =>
      rw [Nat.testBit_zero, Nat.testBit_zero]
      have hm : (2 * (2 ^ n * q + b / 2) + b % 2) % 2 = b % 2 := by omega
      simp [hm]
    | succ i =>
      rw [Nat.testBit_add_one]
      have hdiv : (2 * (2 ^ n * q + b / 2) + b % 2) / 2 = 2 ^ n * q + b / 2 := by omega
      rw [hdiv, ih hb2 i]
      by_cases h : i < n
      · have h' : i + 1 < n + 1 := by omega
        simp [h, h', Nat.testBit_add_one]
      · have h' : ¬ (i + 1 < n + 1) := by omega
        have he : i + 1 - (n + 1) = i - n := by omega
        simp [h, h', he]

theorem int_lor_eq_add (x y : Int) (n : Nat) (hx0 : 0 ≤ x) (hx : x % ((2 : Int) ^ n) = 0)
    (hy0 : 0 ≤ y) (hy : y < (2 : Int) ^ n) : Int.lor x y = x + y := by
  obtain ⟨m, rfl⟩ := Int.eq_ofNat_of_zero_le hx0
  obtain ⟨b, rfl⟩ := Int.eq_ofNat_of_zero_le hy0
  have hbn : b < 2 ^ n := by
    rw [← natCast_two_pow] at hy
    exact_mod_cast hy
  have hmn : 2 ^ n ∣ m := by
    rw [← natCast_two_pow] at hx
    have : ((2 ^ n : Nat) : Int) ∣ (m : Int) := Int.dvd_of_emod_eq_zero hx
    exact_mod_cast this
  obtain ⟨q, rfl⟩ := hmn
  have hcast : ((2 ^ n * q : Nat) : Int) + ((b : Nat) : Int) = ((2 ^ n * q + b : Nat) : Int) := by
    push_cast
    ring
  rw [show Int.lor ((2 ^ n * q : Nat) : Int) ((b : Nat) : Int)
      = ((2 ^ n * q : Nat) : Int).lor ((b : Nat) : Int) from rfl, hcast]
  apply int_eq_of_testBit_eq
  intro i
  rw [Int.testBit_lor, tb_natCast, tb_natCast, tb_natCast, nat_testBit_two_pow_mul_add q hbn i]
  by_cases h : i < n
  · have hge : ¬ i ≥ n := by omega
    have hq : Nat.testBit (2 ^ n * q) i = false := by
      rw [mul_comm, ← Nat.shiftLeft_eq, Nat.testBit_shiftLeft]
      simp [hge]
    simp [h, hq]
  · have hge : i ≥ n := by omega
    have hbf : Nat.testBit b i = false :=
      Nat.testBit_eq_false_of_lt
        (lt_of_lt_of_le hbn (Nat.pow_le_pow_right (by norm_num) (by omega)))
    have hq : Nat.testBit (2 ^ n * q) i = Nat.testBit q (i - n) := by
      rw [mul_comm, ← Nat.shiftLeft_eq, Nat.testBit_shiftLeft]
      simp [hge]
    simp [h, hq, hbf]

theorem int_lor_eq_add8 (x y : Int) (hx0 : 0 ≤ x) (hx : x % 8 = 0)
    (hy0 : 0 ≤ y) (hy : y < 8) : Int.lor x y = x + y := by
  refine int_lor_eq_add x y 3 hx0 ?_ hy0 ?_ <;> norm_num [hx, hy]

theorem int_lor_eq_add64 (x y : Int) (hx0 : 0 ≤ x) (hx : x % 64 = 0)
    (hy0 : 0 ≤ y) (hy : y < 64) : Int.lor x y = x + y := by
  refine int_lor_eq_add x y 6 hx0 ?_ hy0 ?_ <;> norm_num [hx, hy]

theorem int_lor_eq_add8192 (x y : Int) (hx0 : 0 ≤ x) (hx : x % 8192 = 0)
    (hy0 : 0 ≤ y) (hy : y < 8192) : Int.lor x y = x + y := by
  refine int_lor_eq_add x y 13 hx0 ?_ hy0 ?_ <;> norm_num [hx, hy]

theorem shl3_eq (x : Int) : x <<< (3 : Int) = x * 8 := by
  have h := int_shiftLeft_natCast x 3
  norm_num at h
  exact h

theorem shl6_eq (x : Int) : x <<< (6 : Int) = x * 64 := by
  have h := int_shiftLeft_natCast x 6
  norm_num at h
  exact h

theorem shl13_eq (x : Int) : x <<< (13 : Int) = x * 8192 := by
  have h := int_shiftLeft_natCast x 13
  norm_num at h
  exact h

theorem int_lor_zero (x : Int) : Int.lor x 0 = x := by
  apply int_eq_of_testBit_eq
  intro i
  rw [Int.testBit_lor, tb_int_0]
  simp

end Assemble

namespace Assemble

/-- C3, counterexample: the claim says an unconditional-branch offset outside
the signed 12-bit field is rejected.  Resolving a jump recorded at address 0
against a label at address 4097 gives offset 4096, which is outside the
signed 12-bit field (whose maximum is 2047), yet `doFixups` accepts it and
masks it to `4096 & 0xfff = 0`: the patched word is 49152 with all twelve
offset bits zero — a silent truncation, not a fixup-out-of-range error. -/
theorem C3_counterexample :
    applyFixup [("L", 4097)] [49152] ⟨FIXUP_UNCONDITIONAL, 0, 0, "L", 9⟩ = .ok [49152] ∧
    ((4097 : Int) - 0 - 1 = 4096) ∧ ((4096 : Int) > 2047) ∧ ((49152 : Int) % 4096 = 0) := by
  have h1 : Int.land (49152 : Int) (Int.lnot 0xfff) = 49152 := by
    rw [land_lnot_4095_eq]
    norm_num
  have h2 : Int.land (4096 : Int) 0xfff = 0 := by
    rw [land_4095_eq]
    norm_num
  refine ⟨?_, by norm_num, by norm_num, by norm_num⟩
  simp only [applyFixup]
  norm_num [FIXUP_LEA, FIXUP_LABEL_ADDR, FIXUP_UNCONDITIONAL, List.lookup, h1]
  rw [h2, int_lor_zero]

/-- C3, amended: an unconditional-branch fixup is rejected with the
fixup-out-of-range error exactly when the resolved offset falls outside
±0x7fff — a far looser bound than the signed 12-bit field, so offsets between
2048 and 0x7fff (and their negatives) are accepted and silently truncated by
the `& 0xfff` mask — while a conditional-branch fixup is rejected exactly when
the offset falls outside ±0x1ff; that bound lies inside the signed 10-bit
field, so every accepted conditional offset survives the `& 0x3ff` mask: the
masked field, decoded as a signed 10-bit value, is the original offset. -/
theorem C3_amended_fixup_range (labels : List (String × Int)) (code : List Int)
    (f : Fixup) (T : Int) (hlook : labels.lookup f.target = some T) :
    (f.type = FIXUP_UNCONDITIONAL →
      ((applyFixup labels code f = .error (.assembleError "fixup out of range" f.lineno)) ↔
        (T - f.address - 1 > 0x7fff ∨ T - f.address - 1 < -0x7fff))) ∧
    (f.type = FIXUP_CONDITIONAL →
      ((applyFixup labels code f = .error (.assembleError "fixup out of range" f.lineno)) ↔
        (T - f.address - 1 > 0x1ff ∨ T - f.address - 1 < -0x1ff)) ∧
      (-0x1ff ≤ T - f.address - 1 → T - f.address - 1 ≤ 0x1ff →
        (if Int.land (T - f.address - 1) 0x3ff < 512 then Int.land (T - f.address - 1) 0x3ff
         else Int.land (T - f.address - 1) 0x3ff - 1024) = T - f.address - 1)) := by
  constructor
  · intro htype
    simp only [applyFixup, hlook, htype]
    norm_num [FIXUP_LEA, FIXUP_LABEL_ADDR, FIXUP_UNCONDITIONAL]
    constructor
    · intro h
      by_contra hcon
      push_neg at hcon
      exact absurd (h (by omega) (by omega)) (by simp)
    · intro hrange hle1 hle2
      exact absurd hrange (by omega)
  · intro htype
    constructor
    · simp only [applyFixup, hlook, htype]
      norm_num [FIXUP_LEA, FIXUP_LABEL_ADDR, FIXUP_UNCONDITIONAL, FIXUP_CONDITIONAL]
      constructor
      · intro h
        by_contra hcon
        push_neg at hcon
        exact absurd (h (by omega) (by omega)) (by simp)
      · intro hrange hle1 hle2
        exact absurd hrange (by omega)
    · intro hlo hhi
      rw [land_1023_eq]
      split
      · omega
      · omega

/-- C3 amended-theorem witness: a conditional branch recorded at address 0
resolving to a label at address 3 (offset 2, in range). -/
theorem C3_witness :
    (List.lookup "K" [("K", (3 : Int))] = some 3) ∧
    ((Fixup.type ⟨FIXUP_CONDITIONAL, 0, 0, "K", 7⟩ = FIXUP_UNCONDITIONAL →
      ((applyFixup [("K", 3)] [40960] ⟨FIXUP_CONDITIONAL, 0, 0, "K", 7⟩ =
          .error (.assembleError "fixup out of range"
            (Fixup.lineno ⟨FIXUP_CONDITIONAL, 0, 0, "K", 7⟩))) ↔
        ((3 : Int) - Fixup.address ⟨FIXUP_CONDITIONAL, 0, 0, "K", 7⟩ - 1 > 0x7fff ∨
          (3 : Int) - Fixup.address ⟨FIXUP_CONDITIONAL, 0, 0, "K", 7⟩ - 1 < -0x7fff))) ∧
    (Fixup.type ⟨FIXUP_CONDITIONAL, 0, 0, "K", 7⟩ = FIXUP_CONDITIONAL →
      ((applyFixup [("K", 3)] [40960] ⟨FIXUP_CONDITIONAL, 0, 0, "K", 7⟩ =
          .error (.assembleError "fixup out of range"
            (Fixup.lineno ⟨FIXUP_CONDITIONAL, 0, 0, "K", 7⟩))) ↔
        ((3 : Int) - Fixup.address ⟨FIXUP_CONDITIONAL, 0, 0, "K", 7⟩ - 1 > 0x1ff ∨
          (3 : Int) - Fixup.address ⟨FIXUP_CONDITIONAL, 0, 0, "K", 7⟩ - 1 < -0x1ff)) ∧
      (-0x1ff ≤ (3 : Int) - Fixup.address ⟨FIXUP_CONDITIONAL, 0, 0, "K", 7⟩ - 1 →
        (3 : Int) - Fixup.address ⟨FIXUP_CONDITIONAL, 0, 0, "K", 7⟩ - 1 ≤ 0x1ff →
        (if Int.land ((3 : Int) - Fixup.address ⟨FIXUP_CONDITIONAL, 0, 0, "K", 7⟩ - 1) 0x3ff < 512
         then Int.land ((3 : Int) - Fixup.address ⟨FIXUP_CONDITIONAL, 0, 0, "K", 7⟩ - 1) 0x3ff
         else Int.land ((3 : Int) - Fixup.address ⟨FIXUP_CONDITIONAL, 0, 0, "K", 7⟩ - 1) 0x3ff - 1024) =
          (3 : Int) - Fixup.address ⟨FIXUP_CONDITIONAL, 0, 0, "K", 7⟩ - 1))) :=
  ⟨by decide,
   C3_amended_fixup_range [("K", 3)] [40960] ⟨FIXUP_CONDITIONAL, 0, 0, "K", 7⟩ 3 (by decide)⟩

/-- C4 (confirmed): resolving a branch fixup whose label resolved to address
`T` and whose instruction was recorded at address `I = f.address` patches the
word at the recorded image offset with `(T - I - 1)` masked into the low 12
bits (unconditional) or low 10 bits (conditional); everything from bit 12
(respectively bit 10) upward — the link bit, the condition bits and the opcode
class — is unchanged, as witnessed by the division characterizations. -/
theorem C4_branch_patch (labels : List (String × Int)) (code : List Int) (f : Fixup) (T : Int)
    (hlook : labels.lookup f.target = some T) :
    (f.type = FIXUP_UNCONDITIONAL → -0x7fff ≤ T - f.address - 1 → T - f.address - 1 ≤ 0x7fff →
      applyFixup labels code f = .ok (code.set f.codeOffset
        (Int.lor (Int.land (code.getD f.codeOffset 0) (Int.lnot 0xfff))
          (Int.land (T - f.address - 1) 0xfff))) ∧
      (Int.lor (Int.land (code.getD f.codeOffset 0) (Int.lnot 0xfff))
          (Int.land (T - f.address - 1) 0xfff)) % 4096 = (T - f.address - 1) % 4096 ∧
      (Int.lor (Int.land (code.getD f.codeOffset 0) (Int.lnot 0xfff))
          (Int.land (T - f.address - 1) 0xfff)) / 4096 = (code.getD f.codeOffset 0) / 4096) ∧
    (f.type = FIXUP_CONDITIONAL → -0x1ff ≤ T - f.address - 1 → T - f.address - 1 ≤ 0x1ff →
      applyFixup labels code f = .ok (code.set f.codeOffset
        (Int.lor (Int.land (code.getD f.codeOffset 0) (Int.lnot 0x3ff))
          (Int.land (T - f.address - 1) 0x3ff))) ∧
      (Int.lor (Int.land (code.getD f.codeOffset 0) (Int.lnot 0x3ff))
          (Int.land (T - f.address - 1) 0x3ff)) % 1024 = (T - f.address - 1) % 1024 ∧
      (Int.lor (Int.land (code.getD f.codeOffset 0) (Int.lnot 0x3ff))
          (Int.land (T - f.address - 1) 0x3ff)) / 1024 = (code.getD f.codeOffset 0) / 1024) := by
  constructor
  · intro htype hlo hhi
    refine ⟨?_, patch12_emod _ _, patch12_ediv _ _⟩
    simp only [applyFixup, hlook, htype]
    norm_num [FIXUP_LEA, FIXUP_LABEL_ADDR, FIXUP_UNCONDITIONAL]
    omega
  · intro htype hlo hhi
    refine ⟨?_, patch10_emod _ _, patch10_ediv _ _⟩
    simp only [applyFixup, hlook, htype]
    norm_num [FIXUP_LEA, FIXUP_LABEL_ADDR, FIXUP_UNCONDITIONAL, FIXUP_CONDITIONAL]
    omega

/-- C4 witness, the spec's own example: `jump done` emitted at PC 0 with
`done:` at PC 5 patches offset 4 into the low 12 bits of the branch word. -/
theorem C4_witness :
    (List.lookup "done" [("done", (5 : Int))] = some 5) ∧
    ((Fixup.type ⟨FIXUP_UNCONDITIONAL, 0, 0, "done", 1⟩ = FIXUP_UNCONDITIONAL →
      -0x7fff ≤ (5 : Int) - Fixup.address ⟨FIXUP_UNCONDITIONAL, 0, 0, "done", 1⟩ - 1 →
      (5 : Int) - Fixup.address ⟨FIXUP_UNCONDITIONAL, 0, 0, "done", 1⟩ - 1 ≤ 0x7fff →
      applyFixup [("done", 5)] [49152] ⟨FIXUP_UNCONDITIONAL, 0, 0, "done", 1⟩ =
        .ok (List.set [49152] (Fixup.codeOffset ⟨FIXUP_UNCONDITIONAL, 0, 0, "done", 1⟩)
          (Int.lor (Int.land (List.getD [49152]
              (Fixup.codeOffset ⟨FIXUP_UNCONDITIONAL, 0, 0, "done", 1⟩) 0) (Int.lnot 0xfff))
            (Int.land ((5 : Int) - Fixup.address ⟨FIXUP_UNCONDITIONAL, 0, 0, "done", 1⟩ - 1) 0xfff))) ∧
      (Int.lor (Int.land (List.getD [49152]
          (Fixup.codeOffset ⟨FIXUP_UNCONDITIONAL, 0, 0, "done", 1⟩) 0) (Int.lnot 0xfff))
        (Int.land ((5 : Int) - Fixup.address ⟨FIXUP_UNCONDITIONAL, 0, 0, "done", 1⟩ - 1) 0xfff)) % 4096 =
        ((5 : Int) - Fixup.address ⟨FIXUP_UNCONDITIONAL, 0, 0, "done", 1⟩ - 1) % 4096 ∧
      (Int.lor (Int.land (List.getD [49152]
          (Fixup.codeOffset ⟨FIXUP_UNCONDITIONAL, 0, 0, "done", 1⟩) 0) (Int.lnot 0xfff))
        (Int.land ((5 : Int) - Fixup.address ⟨FIXUP_UNCONDITIONAL, 0, 0, "done", 1⟩ - 1) 0xfff)) / 4096 =
        (List.getD [49152] (Fixup.codeOffset ⟨FIXUP_UNCONDITIONAL, 0, 0, "done", 1⟩) 0) / 4096) ∧
    (Fixup.type ⟨FIXUP_UNCONDITIONAL, 0, 0, "done", 1⟩ = FIXUP_CONDITIONAL →
      -0x1ff ≤ (5 : Int) - Fixup.address ⟨FIXUP_UNCONDITIONAL, 0, 0, "done", 1⟩ - 1 →
      (5 : Int) - Fixup.address ⟨FIXUP_UNCONDITIONAL, 0, 0, "done", 1⟩ - 1 ≤ 0x1ff →
      applyFixup [("done", 5)] [49152] ⟨FIXUP_UNCONDITIONAL, 0, 0, "done", 1⟩ =
        .ok (List.set [49152] (Fixup.codeOffset ⟨FIXUP_UNCONDITIONAL, 0, 0, "done", 1⟩)
          (Int.lor (Int.land (List.getD [49152]
              (Fixup.codeOffset ⟨FIXUP_UNCONDITIONAL, 0, 0, "done", 1⟩) 0) (Int.lnot 0x3ff))
            (Int.land ((5 : Int) - Fixup.address ⟨FIXUP_UNCONDITIONAL, 0, 0, "done", 1⟩ - 1) 0x3ff))) ∧
      (Int.lor (Int.land (List.getD [49152]
          (Fixup.codeOffset ⟨FIXUP_UNCONDITIONAL, 0, 0, "done", 1⟩) 0) (Int.lnot 0x3ff))
        (Int.land ((5 : Int) - Fixup.address ⟨FIXUP_UNCONDITIONAL, 0, 0, "done", 1⟩ - 1) 0x3ff)) % 1024 =
        ((5 : Int) - Fixup.address ⟨FIXUP_UNCONDITIONAL, 0, 0, "done", 1⟩ - 1) % 1024 ∧
      (Int.lor (Int.land (List.getD [49152]
          (Fixup.codeOffset ⟨FIXUP_UNCONDITIONAL, 0, 0, "done", 1⟩) 0) (Int.lnot 0x3ff))
        (Int.land ((5 : Int) - Fixup.address ⟨FIXUP_UNCONDITIONAL, 0, 0, "done", 1⟩ - 1) 0x3ff)) / 1024 =
        (List.getD [49152] (Fixup.codeOffset ⟨FIXUP_UNCONDITIONAL, 0, 0, "done", 1⟩) 0) / 1024)) :=
  ⟨by decide,
   C4_branch_patch [("done", 5)] [49152] ⟨FIXUP_UNCONDITIONAL, 0, 0, "done", 1⟩ 5 (by decide)⟩

end Assemble

namespace Assemble

/-- C5 (confirmed): `lea rd, label` always emits exactly two words — `lui rd, 0`
then `addi rd, rd, 0`, both with immediate field 0 as placeholders — and
records one `FIXUP_LEA` fixup keyed to the image index of the first word;
resolution ORs the upper ten bits of the resolved address `A` into the `lui`
immediate field and the low six bits into the `addi` immediate field, and for
any `0 ≤ A < 2^16` the reconstruction `(lui_imm << 6) | addi_imm` over the two
patched words yields exactly `A`. -/
theorem C5_lea_reconstruction (b : CodeBuilder) (lineno : Int) (reg : Int) (target : String)
    (labels : List (String × Int)) (A : Int)
    (hreg0 : 0 ≤ reg) (hreg7 : reg < 8)
    (hlook : labels.lookup target = some A)
    (hA0 : 0 ≤ A) (hA : A < 65536) :
    ∃ w1 w2,
      emitLea b lineno reg target = .ok
        { b with
          fixups := b.fixups ++ [⟨FIXUP_LEA, b.code.length, getPc b, target, lineno⟩],
          code := b.code ++ [w1, w2],
          currentPc := b.currentPc + 2 } ∧
      w1 = Int.lor ((4 : Int) <<< (13 : Int)) (Int.lor ((Int.land 0 0x3ff) <<< (3 : Int)) reg) ∧
      w2 = Int.lor ((3 : Int) <<< (13 : Int))
        (Int.lor (Int.lor ((Int.land 0 0x7f) <<< (6 : Int)) (reg <<< (3 : Int))) reg) ∧
      ∃ w1' w2',
        applyFixup labels (b.code ++ [w1, w2])
            ⟨FIXUP_LEA, b.code.length, getPc b, target, lineno⟩ =
          .ok (b.code ++ [w1', w2']) ∧
        w1' = Int.lor w1 ((Int.land (A >>> (6 : Int)) 0x3ff) <<< (3 : Int)) ∧
        w2' = Int.lor w2 ((Int.land A 0x3f) <<< (6 : Int)) ∧
        Int.lor ((Int.land (w1' >>> (3 : Int)) 0x3ff) <<< (6 : Int))
          (Int.land (w2' >>> (6 : Int)) 0x7f) = A := by
  refine ⟨_, _, ?_, rfl, rfl, _, _, ?_, rfl, rfl, ?_⟩
  · simp only [emitLea, emitLui]
    rw [if_neg (by norm_num)]
    simp only [emitAddi]
    rw [if_neg (by norm_num)]
    norm_num [emitInstr, emitData, List.append_assoc]
    omega
  · simp only [applyFixup, hlook]
    rw [if_pos trivial]
    simp only [getD_append2_left, set_append2_left, getD_append2_right, set_append2_right]
  · have hc1 : Int.land (0 : Int) 0x3ff = 0 := by decide
    have hc2 : Int.land (0 : Int) 0x7f = 0 := by decide
    have hsh03 : (0 : Int) <<< (3 : Int) = 0 := by decide
    have hsh06 : (0 : Int) <<< (6 : Int) = 0 := by decide
    have h413 : (4 : Int) <<< (13 : Int) = 32768 := by decide
    have h313 : (3 : Int) <<< (13 : Int) = 24576 := by decide
    have hf1 : Int.land (A >>> (6 : Int)) 0x3ff = A / 64 % 1024 := by
      rw [land_1023_eq, shr6_eq]
    have hf2 : Int.land A 0x3f = A % 64 := land_63_eq A
    rw [hc1, hc2, hsh03, hsh06, h413, h313, hf1, hf2, int_zero_lor, int_zero_lor]
    simp only [shl3_eq, shl6_eq]
    have hf1lo : 0 ≤ A / 64 % 1024 := by omega
    have hf1hi : A / 64 % 1024 < 1024 := by omega
    have hf2lo : 0 ≤ A % 64 := by omega
    have hf2hi : A % 64 < 64 := by omega
    have hw2inner : Int.lor (reg * 8) reg = reg * 8 + reg :=
      int_lor_eq_add8 _ _ (by omega) (by omega) hreg0 hreg7
    have hw1 : Int.lor (Int.lor 32768 reg) (A / 64 % 1024 * 8) =
        32768 + A / 64 % 1024 * 8 + reg := by
      rw [int_lor_assoc, int_lor_comm reg (A / 64 % 1024 * 8),
        int_lor_eq_add8 (A / 64 % 1024 * 8) reg (by omega) (by omega) hreg0 hreg7,
        int_lor_eq_add8192 32768 (A / 64 % 1024 * 8 + reg) (by norm_num) (by norm_num)
          (by omega) (by omega)]
      ring
    have hw2 : Int.lor (Int.lor 24576 (reg * 8 + reg)) (A % 64 * 64) =
        24576 + A % 64 * 64 + (reg * 8 + reg) := by
      rw [int_lor_assoc, int_lor_comm (reg * 8 + reg) (A % 64 * 64),
        int_lor_eq_add64 (A % 64 * 64) (reg * 8 + reg) (by omega) (by omega)
          (by omega) (by omega),
        int_lor_eq_add8192 24576 (A % 64 * 64 + (reg * 8 + reg)) (by norm_num) (by norm_num)
          (by omega) (by omega)]
      ring
    rw [hw2inner, hw1, hw2, shr3_eq, shr6_eq, land_1023_eq, land_127_eq]
    have hlui : (32768 + A / 64 % 1024 * 8 + reg) / 8 % 1024 = A / 64 % 1024 := by omega
    have haddi : (24576 + A % 64 * 64 + (reg * 8 + reg)) / 64 % 128 = A % 64 := by
      have hd : (24576 + A % 64 * 64 + (reg * 8 + reg)) / 64 = 384 + A % 64 := by omega
      rw [hd]
      omega
    rw [hlui, haddi,
      int_lor_eq_add64 (A / 64 % 1024 * 64) (A % 64) (by omega) (by omega) (by omega) (by omega)]
    omega

end Assemble

namespace Assemble

/-- C5 witness: `lea r3, target` from the initial state with `target:` later
defined at address 9; the two patched immediate fields reconstruct 9. -/
theorem C5_witness :
    ((0 : Int) ≤ 3) ∧ ((3 : Int) < 8) ∧
    (List.lookup "target" [("target", (9 : Int))] = some 9) ∧
    ((0 : Int) ≤ 9) ∧ ((9 : Int) < 65536) ∧
    (∃ w1 w2,
      emitLea initBuilder 6 3 "target" = .ok
        { initBuilder with
          fixups := initBuilder.fixups ++
            [⟨FIXUP_LEA, initBuilder.code.length, getPc initBuilder, "target", 6⟩],
          code := initBuilder.code ++ [w1, w2],
          currentPc := initBuilder.currentPc + 2 } ∧
      w1 = Int.lor ((4 : Int) <<< (13 : Int)) (Int.lor ((Int.land 0 0x3ff) <<< (3 : Int)) 3) ∧
      w2 = Int.lor ((3 : Int) <<< (13 : Int))
        (Int.lor (Int.lor ((Int.land 0 0x7f) <<< (6 : Int)) ((3 : Int) <<< (3 : Int))) 3) ∧
      ∃ w1' w2',
        applyFixup [("target", 9)] (initBuilder.code ++ [w1, w2])
            ⟨FIXUP_LEA, initBuilder.code.length, getPc initBuilder, "target", 6⟩ =
          .ok (initBuilder.code ++ [w1', w2']) ∧
        w1' = Int.lor w1 ((Int.land ((9 : Int) >>> (6 : Int)) 0x3ff) <<< (3 : Int)) ∧
        w2' = Int.lor w2 ((Int.land 9 0x3f) <<< (6 : Int)) ∧
        Int.lor ((Int.land (w1' >>> (3 : Int)) 0x3ff) <<< (6 : Int))
          (Int.land (w2' >>> (6 : Int)) 0x7f) = 9) :=
  ⟨by norm_num, by norm_num, by decide, by norm_num, by norm_num,
   C5_lea_reconstruction initBuilder 6 3 "target" [("target", 9)] 9
     (by norm_num) (by norm_num) (by decide) (by norm_num) (by norm_num)⟩

end Assemble
